import Mathlib

/-!
# Verification of the solana-bridges Ethereum light-client core

The repository stores a bounded ring of verified Ethereum block headers inside
a Solana account buffer.  The sources available are `parameters.rs` (layout
constants and the storage record) and `tests.rs` (the test suite with real
mainnet header vectors).  The header codec (`eth.rs`) and the instruction
processor (`processor.rs`) are exercised by those tests but their sources are
not present, so they are modelled here from the specification: each such
definition carries a doc comment starting `Modelled from the spec:`.

Integers are embedded as `Nat` with explicit `% 2 ^ w` where machine overflow
matters; byte buffers are `List Nat`; fallible operations return `Option` or
a `(buffer, Option error)` pair.
-/

namespace EthClient

set_option maxRecDepth 1000000

/-- parameters.rs: `HEADER_HISTORY_SIZE`, the ring capacity. -/
def HEADER_HISTORY_SIZE : Nat := 100

/-- parameters.rs: `mem::size_of::<usize>()` on the 64-bit Solana target. -/
def USIZE_WIDTH : Nat := 8

/-- Little-endian encoding of `n` in exactly `w` bytes (truncating mod `256 ^ w`). -/
def natToLE : Nat → Nat → List Nat
  | 0, _ => []
  | w + 1, n => n % 256 :: natToLE w (n / 256)

/-- Little-endian value of a byte list. -/
def leToNat : List Nat → Nat
  | [] => 0
  | b :: t => b + 256 * leToNat t

/-- Read `len` bytes of `buf` starting at `pos` (shorter near the end). -/
def slice (buf : List Nat) (pos len : Nat) : List Nat := (buf.drop pos).take len

/-- Overwrite `buf` starting at `pos` with `v`, keeping the buffer length fixed
(writes past the end are dropped). -/
def writeBytes (buf : List Nat) (pos : Nat) (v : List Nat) : List Nat :=
  buf.take pos ++ v.take (buf.length - pos) ++ buf.drop (pos + v.length)

/-- Modelled from the spec: `ExtraData` (eth.rs is absent), the bounded
variable-length byte sequence of a header. -/
structure ExtraData where
  bytes : List Nat
deriving DecidableEq

/-- Modelled from the spec: the `ExtraData` payload capacity (Ethereum caps
header extra data at 32 bytes). -/
def ExtraData.MAX_LEN : Nat := 32

/-- Modelled from the spec: the packed size of `ExtraData`, one length-prefix
byte plus `MAX_LEN` payload bytes. -/
def ExtraData.LEN : Nat := 1 + ExtraData.MAX_LEN

/-- Modelled from the spec: `ExtraData::pack_into_slice` (eth.rs is absent);
a 1-byte length prefix followed by the payload, zero-padded to `MAX_LEN`. -/
def ExtraData.pack_into_slice (e : ExtraData) : List Nat :=
  e.bytes.length :: (e.bytes ++ List.replicate (ExtraData.MAX_LEN - e.bytes.length) 0)

/-- Modelled from the spec: `ExtraData::unpack_from_slice` (eth.rs is absent);
the prefix is authoritative, trailing padding is ignored, and a declared
length exceeding the capacity is the only failure. -/
def ExtraData.unpack_from_slice (l : List Nat) : Option ExtraData :=
  if l.length = ExtraData.LEN then
    if l.headD 0 ≤ ExtraData.MAX_LEN then some ⟨(l.drop 1).take (l.headD 0)⟩ else none
  else none

/-- Modelled from the spec: the `BlockHeader` value type of eth.rs (absent);
hashes and the bloom filter are raw byte lists, the numeric fields are
unsigned integers bounded by their Rust types. -/
structure BlockHeader where
  parent_hash : List Nat
  uncles_hash : List Nat
  author : List Nat
  state_root : List Nat
  transactions_root : List Nat
  receipts_root : List Nat
  log_bloom : List Nat
  difficulty : Nat
  number : Nat
  gas_limit : Nat
  gas_used : Nat
  timestamp : Nat
  extra_data : ExtraData
  mix_hash : List Nat
  nonce : List Nat
deriving DecidableEq

/-- Modelled from the spec: `BlockHeader::LEN`, the packed size of a header
(sum of the fixed field widths of eth.rs). -/
def BlockHeader.LEN : Nat :=
  32 + 32 + 20 + 32 + 32 + 32 + 256 + 32 + 8 + 32 + 32 + 8 + ExtraData.LEN + 32 + 8

/-- parameters.rs: `BLOCKS_OFFSET = size_of::<usize>() + size_of::<u64>() + 1`. -/
def BLOCKS_OFFSET : Nat := USIZE_WIDTH + 8 + 1

/-- parameters.rs: `MIN_BUF_SIZE = BLOCKS_OFFSET + BlockHeader::LEN`. -/
def MIN_BUF_SIZE : Nat := BLOCKS_OFFSET + BlockHeader.LEN

/-- The typing and extra-data invariants a header satisfies in the Rust code:
fixed byte widths for the hash fields and Rust-type bounds for the numeric
fields, plus the capped extra data. -/
def validHeader (h : BlockHeader) : Prop :=
  h.parent_hash.length = 32 ∧ h.uncles_hash.length = 32 ∧ h.author.length = 20 ∧
  h.state_root.length = 32 ∧ h.transactions_root.length = 32 ∧ h.receipts_root.length = 32 ∧
  h.log_bloom.length = 256 ∧ h.difficulty < 2 ^ 256 ∧ h.number < 2 ^ 64 ∧
  h.gas_limit < 2 ^ 256 ∧ h.gas_used < 2 ^ 256 ∧ h.timestamp < 2 ^ 64 ∧
  h.extra_data.bytes.length ≤ ExtraData.MAX_LEN ∧ h.mix_hash.length = 32 ∧ h.nonce.length = 8

instance (h : BlockHeader) : Decidable (validHeader h) := by
  unfold validHeader; infer_instance

/-- Modelled from the spec: `BlockHeader::pack_into_slice` (eth.rs is absent);
every field in a fixed order and width, integers little-endian, extra data
packed as length prefix plus padded payload. -/
def BlockHeader.pack_into_slice (h : BlockHeader) : List Nat :=
  h.parent_hash ++ h.uncles_hash ++ h.author ++ h.state_root ++ h.transactions_root ++
  h.receipts_root ++ h.log_bloom ++ natToLE 32 h.difficulty ++ natToLE 8 h.number ++
  natToLE 32 h.gas_limit ++ natToLE 32 h.gas_used ++ natToLE 8 h.timestamp ++
  h.extra_data.pack_into_slice ++ h.mix_hash ++ h.nonce

/-- Modelled from the spec: `BlockHeader::unpack_from_slice` (eth.rs is
absent); the exact inverse of packing, failing only when the declared
extra-data length exceeds the capacity. -/
def BlockHeader.unpack_from_slice (l : List Nat) : Option BlockHeader :=
  if l.length = BlockHeader.LEN then
    match ExtraData.unpack_from_slice (slice l 548 ExtraData.LEN) with
    | none => none
    | some e => some
      { parent_hash := slice l 0 32
        uncles_hash := slice l 32 32
        author := slice l 64 20
        state_root := slice l 84 32
        transactions_root := slice l 116 32
        receipts_root := slice l 148 32
        log_bloom := slice l 180 256
        difficulty := leToNat (slice l 436 32)
        number := leToNat (slice l 468 8)
        gas_limit := leToNat (slice l 476 32)
        gas_used := leToNat (slice l 508 32)
        timestamp := leToNat (slice l 540 8)
        extra_data := e
        mix_hash := slice l 581 32
        nonce := slice l 613 8 }
  else none

/-- Minimal big-endian byte encoding of `n`, with recursion fuel. -/
def natBEAux : Nat → Nat → List Nat
  | 0, _ => []
  | f + 1, n => if n = 0 then [] else natBEAux f (n / 256) ++ [n % 256]

/-- Minimal big-endian byte encoding of `n` (empty for 0). -/
def natBE (n : Nat) : List Nat := natBEAux 64 n

/-- Big-endian value of a byte list. -/
def beToNat (l : List Nat) : Nat := l.foldl (fun acc b => acc * 256 + b) 0

/-- Modelled from the spec: the RLP encoding of one byte-string item (the
recursive-list primitive the codec builds on is an external crate). -/
def encodeItem (bs : List Nat) : List Nat :=
  if bs.length = 1 ∧ bs.headD 0 < 0x80 then bs
  else if bs.length ≤ 55 then (0x80 + bs.length) :: bs
  else (0xb7 + (natBE bs.length).length) :: (natBE bs.length ++ bs)

/-- Modelled from the spec: the RLP list framing around an encoded payload. -/
def encodeList (payload : List Nat) : List Nat :=
  if payload.length ≤ 55 then (0xc0 + payload.length) :: payload
  else (0xf7 + (natBE payload.length).length) :: (natBE payload.length ++ payload)

/-- Modelled from the spec: `encode(header)`, the canonical RLP wire encoding
of a block header (eth.rs is absent); a 15-item list in field order, hashes
as fixed byte strings and integers as minimal big-endian strings. -/
def encode_header (h : BlockHeader) : List Nat :=
  encodeList
    (encodeItem h.parent_hash ++ encodeItem h.uncles_hash ++ encodeItem h.author ++
     encodeItem h.state_root ++ encodeItem h.transactions_root ++ encodeItem h.receipts_root ++
     encodeItem h.log_bloom ++ encodeItem (natBE h.difficulty) ++ encodeItem (natBE h.number) ++
     encodeItem (natBE h.gas_limit) ++ encodeItem (natBE h.gas_used) ++
     encodeItem (natBE h.timestamp) ++ encodeItem h.extra_data.bytes ++
     encodeItem h.mix_hash ++ encodeItem h.nonce)

/-- Modelled from the spec: parse one RLP byte-string item, returning its
payload and the remaining stream, or `none` on malformed input. -/
def parseItem (l : List Nat) : Option (List Nat × List Nat) :=
  match l with
  | [] => none
  | p :: rest =>
    if p < 0x80 then some ([p], rest)
    else if p < 0xb8 then
      let n := p - 0x80
      if n ≤ rest.length then some (rest.take n, rest.drop n) else none
    else if p < 0xc0 then
      let ll := p - 0xb7
      if ll ≤ rest.length then
        let n := beToNat (rest.take ll)
        let r2 := rest.drop ll
        if n ≤ r2.length then some (r2.take n, r2.drop n) else none
      else none
    else none

/-- Modelled from the spec: parse the 15 header fields from an RLP list
payload, checking the expected byte width of each fixed-width field and that
the payload is consumed exactly. -/
def parseFields (l : List Nat) : Option BlockHeader :=
  match parseItem l with
  | none => none
  | some (f1, r1) =>
  match parseItem r1 with
  | none => none
  | some (f2, r2) =>
  match parseItem r2 with
  | none => none
  | some (f3, r3) =>
  match parseItem r3 with
  | none => none
  | some (f4, r4) =>
  match parseItem r4 with
  | none => none
  | some (f5, r5) =>
  match parseItem r5 with
  | none => none
  | some (f6, r6) =>
  match parseItem r6 with
  | none => none
  | some (f7, r7) =>
  match parseItem r7 with
  | none => none
  | some (f8, r8) =>
  match parseItem r8 with
  | none => none
  | some (f9, r9) =>
  match parseItem r9 with
  | none => none
  | some (f10, r10) =>
  match parseItem r10 with
  | none => none
  | some (f11, r11) =>
  match parseItem r11 with
  | none => none
  | some (f12, r12) =>
  match parseItem r12 with
  | none => none
  | some (f13, r13) =>
  match parseItem r13 with
  | none => none
  | some (f14, r14) =>
  match parseItem r14 with
  | none => none
  | some (f15, r15) =>
  if f1.length = 32 ∧ f2.length = 32 ∧ f3.length = 20 ∧ f4.length = 32 ∧
     f5.length = 32 ∧ f6.length = 32 ∧ f7.length = 256 ∧ f8.length ≤ 32 ∧
     f9.length ≤ 8 ∧ f10.length ≤ 32 ∧ f11.length ≤ 32 ∧ f12.length ≤ 8 ∧
     f14.length = 32 ∧ f15.length = 8 ∧ r15 = [] then
    some
      { parent_hash := f1, uncles_hash := f2, author := f3, state_root := f4,
        transactions_root := f5, receipts_root := f6, log_bloom := f7,
        difficulty := beToNat f8, number := beToNat f9, gas_limit := beToNat f10,
        gas_used := beToNat f11, timestamp := beToNat f12, extra_data := ⟨f13⟩,
        mix_hash := f14, nonce := f15 }
  else none

/-- Modelled from the spec: `decode(bytes)` for a block header (eth.rs is
absent); strip the RLP list framing, requiring exact consumption, then parse
the 15 fields. -/
def decode_rlp (l : List Nat) : Option BlockHeader :=
  match l with
  | [] => none
  | p :: rest =>
    if p < 0xc0 then none
    else if p < 0xf8 then
      if rest.length = p - 0xc0 then parseFields rest else none
    else
      let ll := p - 0xf7
      if ll ≤ rest.length ∧ beToNat (rest.take ll) = (rest.drop ll).length then
        parseFields (rest.drop ll)
      else none

/-- The modulus of a 64-bit lane. -/
def M64 : Nat := 2 ^ 64

/-- Left-rotate a 64-bit lane by `n`. -/
def rotl64 (x n : Nat) : Nat := ((x <<< n) ||| (x >>> (64 - n))) % M64

/-- The 24 Keccak round constants. -/
def keccakRC : List Nat :=
  [0x0000000000000001, 0x0000000000008082, 0x800000000000808a] ++
  [0x8000000080008000, 0x000000000000808b, 0x0000000080000001] ++
  [0x8000000080008081, 0x8000000000008009, 0x000000000000008a] ++
  [0x0000000000000088, 0x0000000080008009, 0x000000008000000a] ++
  [0x000000008000808b, 0x800000000000008b, 0x8000000000008089] ++
  [0x8000000000008003, 0x8000000000008002, 0x8000000000000080] ++
  [0x000000000000800a, 0x800000008000000a, 0x8000000080008081] ++
  [0x8000000000008080, 0x0000000080000001, 0x8000000080008008]

/-- The Keccak rotation offsets, indexed by `5 * y + x`. -/
def rhoOffsets : List Nat :=
  [0, 1, 62, 28, 27] ++
  [36, 44, 6, 55, 20] ++
  [3, 10, 43, 25, 39] ++
  [41, 45, 15, 21, 8] ++
  [18, 2, 61, 56, 14]

/-- Lane `(x, y)` of a Keccak state, coordinates taken mod 5. -/
def lane (s : List Nat) (x y : Nat) : Nat := s.getD (5 * (y % 5) + (x % 5)) 0

/-- The Keccak θ step. -/
def theta (s : List Nat) : List Nat :=
  let c := (List.range 5).map (fun x =>
    (lane s x 0) ^^^ (lane s x 1) ^^^ (lane s x 2) ^^^ (lane s x 3) ^^^ (lane s x 4))
  let d := (List.range 5).map (fun x =>
    (c.getD ((x + 4) % 5) 0) ^^^ (rotl64 (c.getD ((x + 1) % 5) 0) 1))
  (List.range 25).map (fun i => (s.getD i 0) ^^^ (d.getD (i % 5) 0))

/-- The combined Keccak ρ and π steps. -/
def rhoPi (s : List Nat) : List Nat :=
  (List.range 25).map (fun i =>
    let xp := i % 5
    let yp := i / 5
    let x := (3 * yp + xp) % 5
    let y := xp
    rotl64 (lane s x y) (rhoOffsets.getD (5 * y + x) 0))

/-- The Keccak χ step. -/
def chi (s : List Nat) : List Nat :=
  (List.range 25).map (fun i =>
    let x := i % 5
    let y := i / 5
    (lane s x y) ^^^ (((lane s (x + 1) y) ^^^ (M64 - 1)) &&& (lane s (x + 2) y)))

/-- The Keccak ι step. -/
def iotaRound (rc : Nat) (s : List Nat) : List Nat :=
  match s with
  | [] => []
  | a :: rest => (a ^^^ rc) :: rest

/-- The Keccak-f[1600] permutation. -/
def keccakF (s : List Nat) : List Nat :=
  keccakRC.foldl (fun st rc => iotaRound rc (chi (rhoPi (theta st)))) s

/-- Assemble a lane from its little-endian bytes. -/
def bytesToLane (bs : List Nat) : Nat :=
  bs.foldr (fun b acc => acc * 256 + b) 0

/-- The `n` little-endian bytes of a lane. -/
def laneToBytes (n : Nat) (x : Nat) : List Nat :=
  (List.range n).map (fun i => (x >>> (8 * i)) % 256)

/-- Split a list into chunks of `n` bytes, with structural recursion fuel. -/
def chunksAux (n : Nat) : Nat → List Nat → List (List Nat)
  | 0, _ => []
  | _ + 1, [] => []
  | fuel + 1, a :: t => (a :: t).take n :: chunksAux n fuel ((a :: t).drop n)

/-- Split a list into chunks of `n` bytes. -/
def chunks (n : Nat) (l : List Nat) : List (List Nat) :=
  chunksAux n l.length l

/-- Absorb one padded rate-sized block into a Keccak state. -/
def absorbBlock (st : List Nat) (block : List Nat) : List Nat :=
  let lanes := (chunks 8 block).map bytesToLane
  keccakF ((List.range 25).map (fun i => (st.getD i 0) ^^^ (lanes.getD i 0)))

/-- Keccak multi-rate padding (0x01 domain byte, as in Ethereum's Keccak-256). -/
def pad101 (rate : Nat) (msg : List Nat) : List Nat :=
  let r := rate - msg.length % rate
  if r = 1 then msg ++ [0x81]
  else msg ++ [0x01] ++ List.replicate (r - 2) 0 ++ [0x80]

/-- Modelled from the spec: the keccak-like hash primitive the core consumes
(an external collaborator); this is the real Keccak-256. -/
def keccak256 (msg : List Nat) : List Nat :=
  let padded := pad101 136 msg
  let st := (chunks 136 padded).foldl absorbBlock (List.replicate 25 0)
  ((st.take 4).map (laneToBytes 8)).flatten

/-- Modelled from the spec: `hash_header` (eth.rs is absent), the header's
identifying hash, Keccak-256 of its canonical RLP encoding. -/
def hash_header (h : BlockHeader) : List Nat := keccak256 (encode_header h)

/-- Modelled from the spec: the instruction tags of instruction.rs (absent). -/
inductive Instruction where
  | noop
  | initialise (h : BlockHeader)
  | newBlock (h : BlockHeader)
deriving DecidableEq

/-- Modelled from the spec: the error taxonomy of §7 (processor.rs is absent). -/
inductive ProgError where
  | bufferTooSmall
  | alreadyInitialized
  | notInitialized
  | powFailed
  | linkageMismatch
  | nonSequentialHeight
  | unpackFailed
  | packFailed
deriving DecidableEq

/-- The ring capacity (spec §3: `capacity = HEADER_HISTORY_SIZE`). -/
def capacity : Nat := HEADER_HISTORY_SIZE

/-- Storage metadata: `height`, a u64 at byte offset 0 (spec §6). -/
def read_height (buf : List Nat) : Nat := leToNat (slice buf 0 8)

/-- Storage metadata: `offset`, a usize at byte offset 8 (spec §6). -/
def read_offset (buf : List Nat) : Nat := leToNat (slice buf 8 USIZE_WIDTH)

/-- Storage metadata: `full`, one byte at offset `8 + W` (spec §6). -/
def read_full (buf : List Nat) : Bool := (slice buf (8 + USIZE_WIDTH) 1).headD 0 != 0

/-- The packed bytes of ring slot `i`, starting at `BLOCKS_OFFSET` (spec §6). -/
def read_slot (buf : List Nat) (i : Nat) : List Nat :=
  slice buf (BLOCKS_OFFSET + i * BlockHeader.LEN) BlockHeader.LEN

/-- Write the `height` metadata field. -/
def write_height (buf : List Nat) (n : Nat) : List Nat := writeBytes buf 0 (natToLE 8 n)

/-- Write the `offset` metadata field. -/
def write_offset (buf : List Nat) (n : Nat) : List Nat :=
  writeBytes buf 8 (natToLE USIZE_WIDTH n)

/-- Write the `full` metadata byte. -/
def write_full (buf : List Nat) (b : Bool) : List Nat :=
  writeBytes buf (8 + USIZE_WIDTH) [if b then 1 else 0]

/-- Write the packed bytes of ring slot `i`. -/
def write_slot (buf : List Nat) (i : Nat) (v : List Nat) : List Nat :=
  writeBytes buf (BLOCKS_OFFSET + i * BlockHeader.LEN) v

/-- Modelled from the spec: `slot_count()` (processor.rs is absent), the number
of valid occupied slots: the capacity once full, the write cursor before. -/
def slot_count (buf : List Nat) : Nat :=
  if read_full buf then capacity else read_offset buf

/-- Modelled from the spec: `process_instruction` (processor.rs is absent).
`hash_fn` and `pow_fn` abstract the external hash and Ethash oracles.  The
buffer-size guard runs before any field access; `NewBlock` verifies
proof-of-work, linkage against the unpacked tip, and sequential height, all
before any mutation; mutations write the packed header to slot `offset`, then
set `height`, advance `offset` modulo the capacity, and update `full`. -/
def process_instruction (hash_fn : BlockHeader → List Nat) (pow_fn : BlockHeader → Bool)
    (buf : List Nat) (i : Instruction) : List Nat × Option ProgError :=
  match i with
  | .noop => (buf, none)
  | .initialise h =>
    if buf.length < MIN_BUF_SIZE then (buf, some .bufferTooSmall)
    else if read_height buf ≠ 0 then (buf, some .alreadyInitialized)
    else if ExtraData.MAX_LEN < h.extra_data.bytes.length then (buf, some .packFailed)
    else
      (write_full (write_offset (write_height (write_slot buf 0 h.pack_into_slice) h.number) 1)
        false, none)
  | .newBlock h =>
    if buf.length < MIN_BUF_SIZE then (buf, some .bufferTooSmall)
    else if read_height buf = 0 then (buf, some .notInitialized)
    else if pow_fn h = false then (buf, some .powFailed)
    else
      match BlockHeader.unpack_from_slice
        (read_slot buf ((read_offset buf + (capacity - 1)) % capacity)) with
      | none => (buf, some .unpackFailed)
      | some tip =>
        if h.parent_hash ≠ hash_fn tip then (buf, some .linkageMismatch)
        else if h.number ≠ read_height buf + 1 then (buf, some .nonSequentialHeight)
        else if ExtraData.MAX_LEN < h.extra_data.bytes.length then (buf, some .packFailed)
        else
          let off := read_offset buf
          (write_full
            (write_offset (write_height (write_slot buf off h.pack_into_slice) h.number)
              ((off + 1) % capacity))
            (read_full buf || ((off + 1) % capacity == 0)), none)

/-- Fold a list of instructions over a buffer, keeping the resulting buffer of
each call (failed calls leave it unchanged). -/
def run_instructions (hash_fn : BlockHeader → List Nat) (pow_fn : BlockHeader → Bool)
    (buf : List Nat) (is : List Instruction) : List Nat :=
  is.foldl (fun b i => (process_instruction hash_fn pow_fn b i).1) buf

/-- A header with all fields empty, used as a concrete test input. -/
def emptyHeader : BlockHeader :=
  { parent_hash := [], uncles_hash := [], author := [], state_root := [],
    transactions_root := [], receipts_root := [], log_bloom := [],
    difficulty := 0, number := 0, gas_limit := 0, gas_used := 0, timestamp := 0,
    extra_data := ⟨[]⟩, mix_hash := [], nonce := [] }

/-- Modelled from the spec: the decoded header of the HEADER_400000 test vector (eth.rs is absent); field values obtained by RLP-decoding the hex constant in tests.rs. -/
def header_400000 : BlockHeader where
  parent_hash := (
  [0x1e, 0x77, 0xd8, 0xf1, 0x26, 0x73, 0x48, 0xb5, 0x16, 0xeb, 0xc4] ++
  [0xf4, 0xda, 0x1e, 0x2a, 0xa5, 0x9f, 0x85, 0xf0, 0xcb, 0xd8, 0x53] ++
  [0x94, 0x95, 0x00, 0xff, 0xac, 0x8b, 0xfc, 0x38, 0xba, 0x14])
  uncles_hash := (
  [0x1d, 0xcc, 0x4d, 0xe8, 0xde, 0xc7, 0x5d, 0x7a, 0xab, 0x85, 0xb5] ++
  [0x67, 0xb6, 0xcc, 0xd4, 0x1a, 0xd3, 0x12, 0x45, 0x1b, 0x94, 0x8a] ++
  [0x74, 0x13, 0xf0, 0xa1, 0x42, 0xfd, 0x40, 0xd4, 0x93, 0x47])
  author := (
  [0x2a, 0x65, 0xac, 0xa4, 0xd5, 0xfc, 0x5b, 0x5c, 0x85, 0x90, 0x90] ++
  [0xa6, 0xc3, 0x4d, 0x16, 0x41, 0x35, 0x39, 0x82, 0x26])
  state_root := (
  [0x0b, 0x5e, 0x43, 0x86, 0x68, 0x0f, 0x43, 0xc2, 0x24, 0xc5, 0xc0] ++
  [0x37, 0xef, 0xc0, 0xb6, 0x45, 0xc8, 0xe1, 0xc3, 0xf6, 0xb3, 0x0d] ++
  [0xa0, 0xee, 0xc0, 0x72, 0x72, 0xb4, 0xe6, 0xf8, 0xcd, 0x89])
  transactions_root := (
  [0x56, 0xe8, 0x1f, 0x17, 0x1b, 0xcc, 0x55, 0xa6, 0xff, 0x83, 0x45] ++
  [0xe6, 0x92, 0xc0, 0xf8, 0x6e, 0x5b, 0x48, 0xe0, 0x1b, 0x99, 0x6c] ++
  [0xad, 0xc0, 0x01, 0x62, 0x2f, 0xb5, 0xe3, 0x63, 0xb4, 0x21])
  receipts_root := (
  [0x56, 0xe8, 0x1f, 0x17, 0x1b, 0xcc, 0x55, 0xa6, 0xff, 0x83, 0x45] ++
  [0xe6, 0x92, 0xc0, 0xf8, 0x6e, 0x5b, 0x48, 0xe0, 0x1b, 0x99, 0x6c] ++
  [0xad, 0xc0, 0x01, 0x62, 0x2f, 0xb5, 0xe3, 0x63, 0xb4, 0x21])
  log_bloom := List.replicate 256 (0x00 : Nat)
  difficulty := 6022643743806
  number := 400000
  gas_limit := 3141592
  gas_used := 0
  timestamp := 1445130204
  extra_data := ⟨(
  [0xd5, 0x83, 0x01, 0x02, 0x02, 0x84, 0x47, 0x65, 0x74, 0x68, 0x85] ++
  [0x67, 0x6f, 0x31, 0x2e, 0x35, 0x85, 0x6c, 0x69, 0x6e, 0x75, 0x78])⟩
  mix_hash := (
  [0x3f, 0xbe, 0xa7, 0xaf, 0x64, 0x2a, 0x4e, 0x20, 0xcd, 0x93, 0xa9] ++
  [0x45, 0xa1, 0xf5, 0xe2, 0x3b, 0xd7, 0x2f, 0xc5, 0x26, 0x11, 0x53] ++
  [0xe0, 0x91, 0x02, 0xcf, 0x71, 0x89, 0x80, 0xae, 0xff, 0x38])
  nonce := [0x6a, 0xf2, 0x3c, 0xaa, 0xe9, 0x56, 0x92, 0xef]

/-- The raw RLP wire bytes of the HEADER_400000 test vector from tests.rs. -/
def header_400000_rlp : List Nat := (
  [0xf9, 0x02, 0x13, 0xa0, 0x1e, 0x77, 0xd8, 0xf1, 0x26, 0x73, 0x48] ++
  [0xb5, 0x16, 0xeb, 0xc4, 0xf4, 0xda, 0x1e, 0x2a, 0xa5, 0x9f, 0x85] ++
  [0xf0, 0xcb, 0xd8, 0x53, 0x94, 0x95, 0x00, 0xff, 0xac, 0x8b, 0xfc] ++
  [0x38, 0xba, 0x14, 0xa0, 0x1d, 0xcc, 0x4d, 0xe8, 0xde, 0xc7, 0x5d] ++
  [0x7a, 0xab, 0x85, 0xb5, 0x67, 0xb6, 0xcc, 0xd4, 0x1a, 0xd3, 0x12] ++
  [0x45, 0x1b, 0x94, 0x8a, 0x74, 0x13, 0xf0, 0xa1, 0x42, 0xfd, 0x40] ++
  [0xd4, 0x93, 0x47, 0x94, 0x2a, 0x65, 0xac, 0xa4, 0xd5, 0xfc, 0x5b] ++
  [0x5c, 0x85, 0x90, 0x90, 0xa6, 0xc3, 0x4d, 0x16, 0x41, 0x35, 0x39] ++
  [0x82, 0x26, 0xa0, 0x0b, 0x5e, 0x43, 0x86, 0x68, 0x0f, 0x43, 0xc2] ++
  [0x24, 0xc5, 0xc0, 0x37, 0xef, 0xc0, 0xb6, 0x45, 0xc8, 0xe1, 0xc3] ++
  [0xf6, 0xb3, 0x0d, 0xa0, 0xee, 0xc0, 0x72, 0x72, 0xb4, 0xe6, 0xf8] ++
  [0xcd, 0x89, 0xa0, 0x56, 0xe8, 0x1f, 0x17, 0x1b, 0xcc, 0x55, 0xa6] ++
  [0xff, 0x83, 0x45, 0xe6, 0x92, 0xc0, 0xf8, 0x6e, 0x5b, 0x48, 0xe0] ++
  [0x1b, 0x99, 0x6c, 0xad, 0xc0, 0x01, 0x62, 0x2f, 0xb5, 0xe3, 0x63] ++
  [0xb4, 0x21, 0xa0, 0x56, 0xe8, 0x1f, 0x17, 0x1b, 0xcc, 0x55, 0xa6] ++
  [0xff, 0x83, 0x45, 0xe6, 0x92, 0xc0, 0xf8, 0x6e, 0x5b, 0x48, 0xe0] ++
  [0x1b, 0x99, 0x6c, 0xad, 0xc0, 0x01, 0x62, 0x2f, 0xb5, 0xe3, 0x63] ++
  [0xb4, 0x21, 0xb9, 0x01] ++ List.replicate 257 (0x00 : Nat) ++
  [0x86, 0x05, 0x7a, 0x41, 0x8a, 0x7c, 0x3e, 0x83, 0x06, 0x1a, 0x80] ++
  [0x83, 0x2f, 0xef, 0xd8, 0x80, 0x84, 0x56, 0x22, 0xef, 0xdc, 0x96] ++
  [0xd5, 0x83, 0x01, 0x02, 0x02, 0x84, 0x47, 0x65, 0x74, 0x68, 0x85] ++
  [0x67, 0x6f, 0x31, 0x2e, 0x35, 0x85, 0x6c, 0x69, 0x6e, 0x75, 0x78] ++
  [0xa0, 0x3f, 0xbe, 0xa7, 0xaf, 0x64, 0x2a, 0x4e, 0x20, 0xcd, 0x93] ++
  [0xa9, 0x45, 0xa1, 0xf5, 0xe2, 0x3b, 0xd7, 0x2f, 0xc5, 0x26, 0x11] ++
  [0x53, 0xe0, 0x91, 0x02, 0xcf, 0x71, 0x89, 0x80, 0xae, 0xff, 0x38] ++
  [0x88, 0x6a, 0xf2, 0x3c, 0xaa, 0xe9, 0x56, 0x92, 0xef])

/-- Modelled from the spec: the decoded header of the HEADER_400001 test vector (eth.rs is absent); field values obtained by RLP-decoding the hex constant in tests.rs. -/
def header_400001 : BlockHeader where
  parent_hash := (
  [0x5d, 0x15, 0x64, 0x9e, 0x25, 0xd8, 0xf3, 0xe2, 0xc0, 0x37, 0x49] ++
  [0x46, 0x07, 0x85, 0x39, 0xd2, 0x00, 0x71, 0x0a, 0xfc, 0x97, 0x7c] ++
  [0xdf, 0xc6, 0xa9, 0x77, 0xbd, 0x23, 0xf2, 0x0f, 0xa8, 0xe8])
  uncles_hash := (
  [0x1d, 0xcc, 0x4d, 0xe8, 0xde, 0xc7, 0x5d, 0x7a, 0xab, 0x85, 0xb5] ++
  [0x67, 0xb6, 0xcc, 0xd4, 0x1a, 0xd3, 0x12, 0x45, 0x1b, 0x94, 0x8a] ++
  [0x74, 0x13, 0xf0, 0xa1, 0x42, 0xfd, 0x40, 0xd4, 0x93, 0x47])
  author := (
  [0x52, 0xbc, 0x44, 0xd5, 0x37, 0x83, 0x09, 0xee, 0x2a, 0xbf, 0x15] ++
  [0x39, 0xbf, 0x71, 0xde, 0x1b, 0x7d, 0x7b, 0xe3, 0xb5])
  state_root := (
  [0x9a, 0xee, 0xd0, 0xf1, 0xa9, 0x90, 0xa5, 0x57, 0x8f, 0xbe, 0x75] ++
  [0xd4, 0x40, 0x4f, 0x30, 0x11, 0xff, 0x8b, 0x4c, 0x10, 0x8c, 0xb8] ++
  [0xc5, 0xa6, 0x34, 0xe4, 0x99, 0xd1, 0x53, 0xd2, 0x84, 0x88])
  transactions_root := (
  [0x56, 0xe8, 0x1f, 0x17, 0x1b, 0xcc, 0x55, 0xa6, 0xff, 0x83, 0x45] ++
  [0xe6, 0x92, 0xc0, 0xf8, 0x6e, 0x5b, 0x48, 0xe0, 0x1b, 0x99, 0x6c] ++
  [0xad, 0xc0, 0x01, 0x62, 0x2f, 0xb5, 0xe3, 0x63, 0xb4, 0x21])
  receipts_root := (
  [0x56, 0xe8, 0x1f, 0x17, 0x1b, 0xcc, 0x55, 0xa6, 0xff, 0x83, 0x45] ++
  [0xe6, 0x92, 0xc0, 0xf8, 0x6e, 0x5b, 0x48, 0xe0, 0x1b, 0x99, 0x6c] ++
  [0xad, 0xc0, 0x01, 0x62, 0x2f, 0xb5, 0xe3, 0x63, 0xb4, 0x21])
  log_bloom := List.replicate 256 (0x00 : Nat)
  difficulty := 6025584487825
  number := 400001
  gas_limit := 3141592
  gas_used := 0
  timestamp := 1445130212
  extra_data := ⟨(
  [0xd7, 0x83, 0x01, 0x02, 0x02, 0x84, 0x47, 0x65, 0x74, 0x68, 0x87] ++
  [0x67, 0x6f, 0x31, 0x2e, 0x34, 0x2e, 0x32, 0x85, 0x6c, 0x69, 0x6e] ++ [0x75, 0x78])⟩
  mix_hash := (
  [0x72, 0x96, 0x54, 0xa3, 0x78, 0x43, 0xe9, 0x31, 0xa3, 0x68, 0x0a] ++
  [0x27, 0x36, 0x01, 0x15, 0xae, 0x0d, 0x2f, 0x90, 0x21, 0x10, 0xe1] ++
  [0xde, 0xf4, 0x69, 0x75, 0xf6, 0x51, 0xf2, 0xe7, 0xbe, 0xcb])
  nonce := [0x49, 0xef, 0x7c, 0x60, 0x93, 0x77, 0x88, 0xe9]

/-- Modelled from the spec: the decoded header of the TEST_HEADER_0 test vector (eth.rs is absent); field values obtained by RLP-decoding the hex constant in tests.rs. -/
def header_8982502 : BlockHeader where
  parent_hash := (
  [0xf7, 0x79, 0xe5, 0x0b, 0x45, 0xbc, 0x27, 0xe4, 0xed, 0x23, 0x68] ++
  [0x40, 0xe5, 0xdb, 0xcf, 0x7a, 0xfa, 0xb5, 0x0b, 0xea, 0xf5, 0x53] ++
  [0xbe, 0x56, 0xbf, 0x76, 0xda, 0x97, 0x7e, 0x10, 0xcc, 0x73])
  uncles_hash := (
  [0x1d, 0xcc, 0x4d, 0xe8, 0xde, 0xc7, 0x5d, 0x7a, 0xab, 0x85, 0xb5] ++
  [0x67, 0xb6, 0xcc, 0xd4, 0x1a, 0xd3, 0x12, 0x45, 0x1b, 0x94, 0x8a] ++
  [0x74, 0x13, 0xf0, 0xa1, 0x42, 0xfd, 0x40, 0xd4, 0x93, 0x47])
  author := (
  [0x52, 0xbc, 0x44, 0xd5, 0x37, 0x83, 0x09, 0xee, 0x2a, 0xbf, 0x15] ++
  [0x39, 0xbf, 0x71, 0xde, 0x1b, 0x7d, 0x7b, 0xe3, 0xb5])
  state_root := (
  [0x14, 0xc9, 0x96, 0xb6, 0x93, 0x4d, 0x79, 0x91, 0x64, 0x36, 0x69] ++
  [0xe1, 0x45, 0xb8, 0x35, 0x5c, 0x63, 0xaa, 0x02, 0xcb, 0xde, 0x63] ++
  [0xd3, 0x90, 0xfc, 0xf4, 0xe6, 0x18, 0x1d, 0x5e, 0xea, 0x45])
  transactions_root := (
  [0x79, 0xb7, 0xe7, 0x9d, 0xc7, 0x39, 0xc3, 0x16, 0x62, 0xfe, 0x6f] ++
  [0x25, 0xf6, 0x5b, 0xf5, 0xa5, 0xd1, 0x42, 0x99, 0xc7, 0xa7, 0xaa] ++
  [0x42, 0xc3, 0xf7, 0x5b, 0x9f, 0xb0, 0x54, 0x74, 0xf5, 0x4c])
  receipts_root := (
  [0xe2, 0x8d, 0xc0, 0x54, 0x18, 0x69, 0x2c, 0xb7, 0xba, 0xab, 0x7e] ++
  [0x7f, 0x85, 0xc1, 0xde, 0xdb, 0x87, 0x91, 0xc2, 0x75, 0xb7, 0x97] ++
  [0xea, 0x3b, 0x1f, 0xfc, 0xae, 0xc5, 0xef, 0x2a, 0xa2, 0x71])
  log_bloom := (
  List.replicate 29 (0x00 : Nat) ++ [0x02] ++ List.replicate 16 (0x00 : Nat) ++ [0x01] ++
  List.replicate 27 (0x00 : Nat) ++ [0x04, 0x08] ++ List.replicate 35 (0x00 : Nat) ++ [0x01] ++
  List.replicate 11 (0x00 : Nat) ++ [0x10] ++ List.replicate 27 (0x00 : Nat) ++
  [0x40, 0x00, 0x00, 0x00, 0x00, 0x00, 0x10] ++ List.replicate 13 (0x00 : Nat) ++ [0x80] ++
  List.replicate 21 (0x00 : Nat) ++ [0x10, 0x00, 0x02] ++ List.replicate 47 (0x00 : Nat) ++
  [0x02] ++ List.replicate 12 (0x00 : Nat))
  difficulty := 66732518895987240364389938977618277427
  number := 8982502
  gas_limit := 9812622
  gas_used := 53465
  timestamp := 1574455815
  extra_data := ⟨(
  [0x50, 0x50, 0x59, 0x45, 0x20, 0x6e, 0x61, 0x6e, 0x6f, 0x70, 0x6f] ++
  [0x6f, 0x6c, 0x2e, 0x6f, 0x72, 0x67])⟩
  mix_hash := (
  [0xa3, 0x54, 0x25, 0xf4, 0x43, 0x45, 0x2c, 0xf9, 0x4b, 0xa4, 0xb6] ++
  [0x98, 0xb0, 0x0f, 0xd7, 0xb3, 0xff, 0x4f, 0xc6, 0x71, 0xde, 0xa3] ++
  [0xd5, 0xcc, 0x2d, 0xcb, 0xed, 0xbc, 0x37, 0x66, 0xf4, 0x5e])
  nonce := [0xaf, 0x7f, 0xec, 0x60, 0x31, 0x06, 0x3a, 0x17]

/-- The expected recomputed hash of block 400000 from tests.rs. -/
def hash_400000_expected : List Nat := (
  [0x5d, 0x15, 0x64, 0x9e, 0x25, 0xd8, 0xf3, 0xe2, 0xc0, 0x37, 0x49] ++
  [0x46, 0x07, 0x85, 0x39, 0xd2, 0x00, 0x71, 0x0a, 0xfc, 0x97, 0x7c] ++
  [0xdf, 0xc6, 0xa9, 0x77, 0xbd, 0x23, 0xf2, 0x0f, 0xa8, 0xe8])

/-! ## Byte-level lemmas -/

theorem length_natToLE (w n : Nat) : (natToLE w n).length = w := by
  induction w generalizing n with
  | zero => rfl
  | succ w ih => simp [natToLE, ih]

theorem leToNat_natToLE (w n : Nat) : leToNat (natToLE w n) = n % 256 ^ w := by
  induction w generalizing n with
  | zero => simp [natToLE, leToNat, Nat.mod_one]
  | succ w ih =>
    simp only [natToLE, leToNat, ih]
    have h256 : (256 : Nat) ^ (w + 1) = 256 * 256 ^ w := by ring
    rw [h256, Nat.mod_mul]

theorem leToNat_replicate_zero (k : Nat) : leToNat (List.replicate k 0) = 0 := by
  induction k with
  | zero => rfl
  | succ k ih => simp [List.replicate, leToNat, ih]

theorem length_writeBytes (buf v : List Nat) (p : Nat) :
    (writeBytes buf p v).length = buf.length := by
  simp only [writeBytes, List.length_append, List.length_take, List.length_drop]
  omega

theorem take_writeBytes (buf v : List Nat) (p : Nat) :
    (writeBytes buf p v).take p = buf.take p := by
  unfold writeBytes
  rw [List.append_assoc, List.take_append_eq_append_take]
  have hx : (buf.take p).take p = buf.take p := by rw [List.take_take, Nat.min_self]
  rw [hx]
  rcases Nat.le_total p buf.length with h | h
  · have h1 : p - (buf.take p).length = 0 := by rw [List.length_take]; omega
    rw [h1, List.take_zero, List.append_nil]
  · have hmid : buf.length - p = 0 := by omega
    have htail : buf.drop (p + v.length) = [] := List.drop_eq_nil_of_le (by omega)
    simp [hmid, htail]

theorem drop_writeBytes (buf v : List Nat) (p : Nat) :
    (writeBytes buf p v).drop (p + v.length) = buf.drop (p + v.length) := by
  unfold writeBytes
  rw [List.drop_append_eq_append_drop]
  have hA : (buf.take p ++ v.take (buf.length - p)).length ≤ p + v.length := by
    rw [List.length_append, List.length_take, List.length_take]; omega
  rw [List.drop_eq_nil_of_le hA, List.nil_append]
  rcases Nat.le_total (p + v.length) buf.length with h2 | h2
  · have h3 : p + v.length - (buf.take p ++ v.take (buf.length - p)).length = 0 := by
      rw [List.length_append, List.length_take, List.length_take]; omega
    rw [h3, List.drop_zero]
  · rw [List.drop_eq_nil_of_le h2, List.drop_nil]

theorem slice_take (l : List Nat) (m a k : Nat) (h : a + k ≤ m) :
    slice (l.take m) a k = slice l a k := by
  unfold slice
  rw [List.drop_take, List.take_take]
  congr 1
  omega

theorem slice_drop (l : List Nat) (m a k : Nat) (h : m ≤ a) :
    slice (l.drop m) (a - m) k = slice l a k := by
  unfold slice
  rw [List.drop_drop]
  congr 2
  omega

theorem slice_writeBytes_left (buf v : List Nat) (p a k : Nat) (h : a + k ≤ p) :
    slice (writeBytes buf p v) a k = slice buf a k := by
  rw [← slice_take (writeBytes buf p v) p a k h, take_writeBytes, slice_take buf p a k h]

theorem slice_writeBytes_right (buf v : List Nat) (p a k : Nat) (h : p + v.length ≤ a) :
    slice (writeBytes buf p v) a k = slice buf a k := by
  rw [← slice_drop (writeBytes buf p v) (p + v.length) a k h, drop_writeBytes,
    slice_drop buf (p + v.length) a k h]

theorem slice_writeBytes_self (buf v : List Nat) (p : Nat) (h : p + v.length ≤ buf.length) :
    slice (writeBytes buf p v) p v.length = v := by
  unfold writeBytes slice
  have hvt : v.take (buf.length - p) = v := List.take_of_length_le (by omega)
  rw [List.append_assoc, hvt, List.drop_append_eq_append_drop,
    List.drop_eq_nil_of_le (by rw [List.length_take]; omega), List.nil_append]
  have h1 : p - (buf.take p).length = 0 := by rw [List.length_take]; omega
  rw [h1, List.drop_zero, List.take_append_eq_append_take,
    List.take_of_length_le (le_refl _), Nat.sub_self, List.take_zero, List.append_nil]

theorem slice_append_right (a b : List Nat) (p n : Nat) (h : a.length ≤ p) :
    slice (a ++ b) p n = slice b (p - a.length) n := by
  unfold slice
  rw [List.drop_append_eq_append_drop, List.drop_eq_nil_of_le h]
  simp

theorem slice_append_exact (a b : List Nat) (n : Nat) (h : a.length = n) :
    slice (a ++ b) 0 n = a := by
  unfold slice
  rw [List.drop_zero, List.take_append_eq_append_take, ← h, List.take_of_length_le (le_refl _)]
  simp

theorem slice_replicate (n p k : Nat) :
    slice (List.replicate n (0 : Nat)) p k = List.replicate (min k (n - p)) 0 := by
  unfold slice
  rw [List.drop_replicate, List.take_replicate]

/-! ## Packed codec lemmas -/

theorem slice_peel {a : List Nat} {L : Nat} (ha : a.length = L) (b : List Nat) (p n : Nat)
    (hp : L ≤ p) : slice (a ++ b) p n = slice b (p - L) n := by
  rw [← ha] at hp ⊢
  exact slice_append_right a b p n hp

theorem slice_here {a : List Nat} {L : Nat} (ha : a.length = L) (b : List Nat) :
    slice (a ++ b) 0 L = a :=
  slice_append_exact a b L ha

theorem slice_self {a : List Nat} {L : Nat} (ha : a.length = L) : slice a 0 L = a := by
  unfold slice
  rw [List.drop_zero, ← ha, List.take_of_length_le (le_refl _)]

theorem extra_pack_length (e : ExtraData) (h : e.bytes.length ≤ ExtraData.MAX_LEN) :
    e.pack_into_slice.length = ExtraData.LEN := by
  simp only [ExtraData.pack_into_slice, List.length_cons, List.length_append,
    List.length_replicate, ExtraData.LEN]
  omega

theorem extra_unpack_pack (e : ExtraData) (h : e.bytes.length ≤ ExtraData.MAX_LEN) :
    ExtraData.unpack_from_slice e.pack_into_slice = some e := by
  unfold ExtraData.unpack_from_slice ExtraData.pack_into_slice
  rw [if_pos, if_pos]
  · simp only [List.headD_cons, List.drop_succ_cons, List.drop_zero, List.take_left]
  · simpa only [List.headD_cons] using h
  · simp only [List.length_cons, List.length_append, List.length_replicate, ExtraData.LEN]
    omega

theorem header_pack_length (h : BlockHeader) (hv : validHeader h) :
    h.pack_into_slice.length = BlockHeader.LEN := by
  obtain ⟨e1, e2, e3, e4, e5, e6, e7, e8, e9, e10, e11, e12, e13, e14, e15⟩ := hv
  simp only [BlockHeader.pack_into_slice, List.length_append, length_natToLE,
    extra_pack_length h.extra_data e13, BlockHeader.LEN, e1, e2, e3, e4, e5, e6, e7, e14, e15]

theorem pow_256_32 : (256 : Nat) ^ 32 = 2 ^ 256 := by norm_num

theorem pow_256_8 : (256 : Nat) ^ 8 = 2 ^ 64 := by norm_num

theorem header_unpack_pack (h : BlockHeader) (hv : validHeader h) :
    BlockHeader.unpack_from_slice h.pack_into_slice = some h := by
  have hlen := header_pack_length h hv
  obtain ⟨e1, e2, e3, e4, e5, e6, e7, e8, e9, e10, e11, e12, e13, e14, e15⟩ := hv
  have hext := extra_unpack_pack h.extra_data e13
  have hde : h.extra_data.pack_into_slice.length = 33 := extra_pack_length h.extra_data e13
  have hd : h.difficulty % 256 ^ 32 = h.difficulty := by
    rw [pow_256_32]; exact Nat.mod_eq_of_lt e8
  have hn : h.number % 256 ^ 8 = h.number := by
    rw [pow_256_8]; exact Nat.mod_eq_of_lt e9
  have hgl : h.gas_limit % 256 ^ 32 = h.gas_limit := by
    rw [pow_256_32]; exact Nat.mod_eq_of_lt e10
  have hgu : h.gas_used % 256 ^ 32 = h.gas_used := by
    rw [pow_256_32]; exact Nat.mod_eq_of_lt e11
  have hts : h.timestamp % 256 ^ 8 = h.timestamp := by
    rw [pow_256_8]; exact Nat.mod_eq_of_lt e12
  unfold BlockHeader.unpack_from_slice
  rw [if_pos hlen]
  unfold BlockHeader.pack_into_slice
  simp [slice_peel e1, slice_peel e2, slice_peel e3, slice_peel e4, slice_peel e5,
    slice_peel e6, slice_peel e7, slice_peel (length_natToLE 32 h.difficulty),
    slice_peel (length_natToLE 8 h.number), slice_peel (length_natToLE 32 h.gas_limit),
    slice_peel (length_natToLE 32 h.gas_used), slice_peel (length_natToLE 8 h.timestamp),
    slice_peel hde, slice_peel e14,
    slice_here e1, slice_here e2, slice_here e3, slice_here e4, slice_here e5,
    slice_here e6, slice_here e7, slice_here (length_natToLE 32 h.difficulty),
    slice_here (length_natToLE 8 h.number), slice_here (length_natToLE 32 h.gas_limit),
    slice_here (length_natToLE 32 h.gas_used), slice_here (length_natToLE 8 h.timestamp),
    slice_here hde, slice_here e14, slice_self e15,
    hext, ExtraData.LEN, ExtraData.MAX_LEN]
  simp only [leToNat_natToLE, hd, hn, hgl, hgu, hts]

/-! ## RLP lemmas -/

theorem beToNat_snoc (l : List Nat) (b : Nat) : beToNat (l ++ [b]) = 256 * beToNat l + b := by
  simp [beToNat, Nat.mul_comm]

theorem beToNat_natBEAux (f n : Nat) (h : n < 256 ^ f) : beToNat (natBEAux f n) = n := by
  induction f generalizing n with
  | zero =>
    have hn : n = 0 := by omega
    subst hn
    rfl
  | succ f ih =>
    unfold natBEAux
    by_cases h0 : n = 0
    · simp [h0, beToNat]
    · rw [if_neg h0, beToNat_snoc, ih (n / 256) (by
        have : 256 ^ (f + 1) = 256 * 256 ^ f := by ring
        omega)]
      omega

theorem beToNat_natBE (n : Nat) (h : n < 256 ^ 64) : beToNat (natBE n) = n :=
  beToNat_natBEAux 64 n h

theorem length_natBEAux_le (f k n : Nat) (h : n < 256 ^ k) : (natBEAux f n).length ≤ k := by
  induction f generalizing k n with
  | zero => simp [natBEAux]
  | succ f ih =>
    unfold natBEAux
    by_cases h0 : n = 0
    · simp [h0]
    · rw [if_neg h0]
      cases k with
      | zero => simp at h; omega
      | succ k =>
        have hdiv : n / 256 < 256 ^ k := by
          have : 256 ^ (k + 1) = 256 * 256 ^ k := by ring
          omega
        have := ih k (n / 256) hdiv
        simp only [List.length_append, List.length_cons, List.length_nil]
        omega

theorem length_natBE_le (k n : Nat) (h : n < 256 ^ k) : (natBE n).length ≤ k :=
  length_natBEAux_le 64 k n h

theorem length_natBE_pos (n : Nat) (h : n ≠ 0) : 1 ≤ (natBE n).length := by
  unfold natBE natBEAux
  rw [if_neg h]
  simp

theorem parseItem_encodeItem (bs rest : List Nat) (hlt : bs.length < 256 ^ 8) :
    parseItem (encodeItem bs ++ rest) = some (bs, rest) := by
  unfold encodeItem
  by_cases hA : bs.length = 1 ∧ bs.headD 0 < 0x80
  · obtain ⟨b, rfl⟩ := List.length_eq_one.mp hA.1
    have hb : b < 0x80 := by simpa using hA.2
    rw [if_pos hA]
    simp [parseItem, hb]
  · rw [if_neg hA]
    by_cases h55 : bs.length ≤ 55
    · rw [if_pos h55]
      have hp1 : ¬ (0x80 + bs.length < 0x80) := by omega
      have hp2 : 0x80 + bs.length < 0xb8 := by omega
      have hsub : 0x80 + bs.length - 0x80 = bs.length := by omega
      simp only [parseItem, List.cons_append, hp1, if_false, hp2, if_true, hsub,
        List.length_append]
      rw [if_pos (by omega), List.take_left' rfl, List.drop_left' rfl]
    · rw [if_neg h55]
      have hll1 : 1 ≤ (natBE bs.length).length := length_natBE_pos _ (by omega)
      have hll8 : (natBE bs.length).length ≤ 8 := length_natBE_le 8 _ hlt
      have hp1 : ¬ (0xb7 + (natBE bs.length).length < 0x80) := by omega
      have hp2 : ¬ (0xb7 + (natBE bs.length).length < 0xb8) := by omega
      have hp3 : 0xb7 + (natBE bs.length).length < 0xc0 := by omega
      have hsub : 0xb7 + (natBE bs.length).length - 0xb7 = (natBE bs.length).length := by omega
      simp only [parseItem, List.cons_append, List.append_assoc, hp1, if_false, hp2, hp3,
        if_true, hsub]
      rw [if_pos (by simp), List.take_left' rfl, List.drop_left' rfl,
        beToNat_natBE _ (lt_of_lt_of_le hlt (by norm_num))]
      rw [if_pos (by simp), List.take_left' rfl, List.drop_left' rfl]

theorem encodeItem_len_55 (bs : List Nat) (h2 : 2 ≤ bs.length) (h55 : bs.length ≤ 55) :
    (encodeItem bs).length = bs.length + 1 := by
  unfold encodeItem
  rw [if_neg (by omega), if_pos h55]
  simp

theorem encodeItem_length_le (bs : List Nat) (h : bs.length ≤ 300) :
    (encodeItem bs).length ≤ bs.length + 3 := by
  unfold encodeItem
  by_cases hA : bs.length = 1 ∧ bs.headD 0 < 0x80
  · rw [if_pos hA]; omega
  · rw [if_neg hA]
    by_cases h55 : bs.length ≤ 55
    · rw [if_pos h55]; simp
    · rw [if_neg h55]
      have : (natBE bs.length).length ≤ 2 := length_natBE_le 2 _ (by omega)
      simp only [List.length_cons, List.length_append]
      omega

theorem decode_encodeList (payload : List Nat) (h56 : 56 ≤ payload.length)
    (hlt : payload.length < 256 ^ 8) :
    decode_rlp (encodeList payload) = parseFields payload := by
  unfold encodeList
  rw [if_neg (by omega)]
  have hll1 : 1 ≤ (natBE payload.length).length := length_natBE_pos _ (by omega)
  have hll8 : (natBE payload.length).length ≤ 8 := length_natBE_le 8 _ hlt
  have hsub : 0xf7 + (natBE payload.length).length - 0xf7 = (natBE payload.length).length := by
    omega
  simp only [decode_rlp, hsub]
  rw [if_neg (by omega), if_neg (by omega),
    if_pos ⟨by simp, by rw [List.take_left' rfl, List.drop_left' rfl,
      beToNat_natBE _ (lt_of_lt_of_le hlt (by norm_num))]⟩,
    List.drop_left' rfl]

theorem decode_encode (h : BlockHeader) (hv : validHeader h) :
    decode_rlp (encode_header h) = some h := by
  obtain ⟨e1, e2, e3, e4, e5, e6, e7, e8, e9, e10, e11, e12, e13, e14, e15⟩ := hv
  have b1 : h.parent_hash.length < 256 ^ 8 := by rw [e1]; norm_num
  have b2 : h.uncles_hash.length < 256 ^ 8 := by rw [e2]; norm_num
  have b3 : h.author.length < 256 ^ 8 := by rw [e3]; norm_num
  have b4 : h.state_root.length < 256 ^ 8 := by rw [e4]; norm_num
  have b5 : h.transactions_root.length < 256 ^ 8 := by rw [e5]; norm_num
  have b6 : h.receipts_root.length < 256 ^ 8 := by rw [e6]; norm_num
  have b7 : h.log_bloom.length < 256 ^ 8 := by rw [e7]; norm_num
  have n8 : (natBE h.difficulty).length ≤ 32 := length_natBE_le 32 _ (by rw [pow_256_32]; exact e8)
  have n9 : (natBE h.number).length ≤ 8 := length_natBE_le 8 _ (by rw [pow_256_8]; exact e9)
  have n10 : (natBE h.gas_limit).length ≤ 32 :=
    length_natBE_le 32 _ (by rw [pow_256_32]; exact e10)
  have n11 : (natBE h.gas_used).length ≤ 32 :=
    length_natBE_le 32 _ (by rw [pow_256_32]; exact e11)
  have n12 : (natBE h.timestamp).length ≤ 8 := length_natBE_le 8 _ (by rw [pow_256_8]; exact e12)
  have e13n : h.extra_data.bytes.length ≤ 32 := e13
  have b8 : (natBE h.difficulty).length < 256 ^ 8 := by
    have : (32 : Nat) < 256 ^ 8 := by norm_num
    omega
  have b9 : (natBE h.number).length < 256 ^ 8 := by
    have : (32 : Nat) < 256 ^ 8 := by norm_num
    omega
  have b10 : (natBE h.gas_limit).length < 256 ^ 8 := by
    have : (32 : Nat) < 256 ^ 8 := by norm_num
    omega
  have b11 : (natBE h.gas_used).length < 256 ^ 8 := by
    have : (32 : Nat) < 256 ^ 8 := by norm_num
    omega
  have b12 : (natBE h.timestamp).length < 256 ^ 8 := by
    have : (32 : Nat) < 256 ^ 8 := by norm_num
    omega
  have b13 : h.extra_data.bytes.length < 256 ^ 8 := by
    have : (32 : Nat) < 256 ^ 8 := by norm_num
    omega
  have b14 : h.mix_hash.length < 256 ^ 8 := by rw [e14]; norm_num
  have b15 : h.nonce.length < 256 ^ 8 := by rw [e15]; norm_num
  have P1 := parseItem_encodeItem h.parent_hash
  have P2 := parseItem_encodeItem h.uncles_hash
  have P3 := parseItem_encodeItem h.author
  have P4 := parseItem_encodeItem h.state_root
  have P5 := parseItem_encodeItem h.transactions_root
  have P6 := parseItem_encodeItem h.receipts_root
  have P7 := parseItem_encodeItem h.log_bloom
  have P8 := parseItem_encodeItem (natBE h.difficulty)
  have P9 := parseItem_encodeItem (natBE h.number)
  have P10 := parseItem_encodeItem (natBE h.gas_limit)
  have P11 := parseItem_encodeItem (natBE h.gas_used)
  have P12 := parseItem_encodeItem (natBE h.timestamp)
  have P13 := parseItem_encodeItem h.extra_data.bytes
  have P14 := parseItem_encodeItem h.mix_hash
  have P15 : parseItem (encodeItem h.nonce) = some (h.nonce, []) := by
    have := parseItem_encodeItem h.nonce [] b15
    simpa using this
  have hL1 : (encodeItem h.parent_hash).length = 33 := by
    rw [encodeItem_len_55 _ (by omega) (by omega), e1]
  have hL2 : (encodeItem h.uncles_hash).length = 33 := by
    rw [encodeItem_len_55 _ (by omega) (by omega), e2]
  have hU1 : (encodeItem h.parent_hash).length ≤ 35 := by omega
  have hU2 : (encodeItem h.uncles_hash).length ≤ 35 := by omega
  have hU3 : (encodeItem h.author).length ≤ 23 := by
    have := encodeItem_length_le h.author (by omega)
    omega
  have hU4 : (encodeItem h.state_root).length ≤ 35 := by
    have := encodeItem_length_le h.state_root (by omega)
    omega
  have hU5 : (encodeItem h.transactions_root).length ≤ 35 := by
    have := encodeItem_length_le h.transactions_root (by omega)
    omega
  have hU6 : (encodeItem h.receipts_root).length ≤ 35 := by
    have := encodeItem_length_le h.receipts_root (by omega)
    omega
  have hU7 : (encodeItem h.log_bloom).length ≤ 259 := by
    have := encodeItem_length_le h.log_bloom (by omega)
    omega
  have hU8 : (encodeItem (natBE h.difficulty)).length ≤ 35 := by
    have := encodeItem_length_le (natBE h.difficulty) (by omega)
    omega
  have hU9 : (encodeItem (natBE h.number)).length ≤ 35 := by
    have := encodeItem_length_le (natBE h.number) (by omega)
    omega
  have hU10 : (encodeItem (natBE h.gas_limit)).length ≤ 35 := by
    have := encodeItem_length_le (natBE h.gas_limit) (by omega)
    omega
  have hU11 : (encodeItem (natBE h.gas_used)).length ≤ 35 := by
    have := encodeItem_length_le (natBE h.gas_used) (by omega)
    omega
  have hU12 : (encodeItem (natBE h.timestamp)).length ≤ 35 := by
    have := encodeItem_length_le (natBE h.timestamp) (by omega)
    omega
  have hU13 : (encodeItem h.extra_data.bytes).length ≤ 35 := by
    have := encodeItem_length_le h.extra_data.bytes (by omega)
    omega
  have hU14 : (encodeItem h.mix_hash).length ≤ 35 := by
    have := encodeItem_length_le h.mix_hash (by omega)
    omega
  have hU15 : (encodeItem h.nonce).length ≤ 11 := by
    have := encodeItem_length_le h.nonce (by omega)
    omega
  unfold encode_header
  rw [decode_encodeList _ (by simp only [List.length_append]; omega)
    (by simp only [List.length_append]; omega)]
  simp only [List.append_assoc, parseFields, P1, P2, P3, P4, P5, P6, P7, P8, P9, P10, P11,
    P12, P13, P14, P15, b1, b2, b3, b4, b5, b6, b7, b8, b9, b10, b11, b12, b13, b14, b15]
  rw [if_pos]
  · rw [beToNat_natBE _ (by rw [← pow_256_32] at e8; exact lt_of_lt_of_le e8 (by norm_num)),
      beToNat_natBE _ (by rw [← pow_256_8] at e9; exact lt_of_lt_of_le e9 (by norm_num)),
      beToNat_natBE _ (by rw [← pow_256_32] at e10; exact lt_of_lt_of_le e10 (by norm_num)),
      beToNat_natBE _ (by rw [← pow_256_32] at e11; exact lt_of_lt_of_le e11 (by norm_num)),
      beToNat_natBE _ (by rw [← pow_256_8] at e12; exact lt_of_lt_of_le e12 (by norm_num))]
  · exact ⟨e1, e2, e3, e4, e5, e6, e7, n8, n9, n10, n11, n12, e14, e15, trivial⟩

/-! ## Processor lemmas -/

theorem MIN_BUF_SIZE_eq : MIN_BUF_SIZE = 638 := rfl

theorem length_write_group (buf v : List Nat) (s n o : Nat) (b : Bool) :
    (write_full (write_offset (write_height (write_slot buf s v) n) o) b).length =
      buf.length := by
  simp only [write_full, write_offset, write_height, write_slot, length_writeBytes]

theorem slice_write_natToLE (X : List Nat) (p n w : Nat) (h : p + w ≤ X.length) :
    slice (writeBytes X p (natToLE w n)) p w = natToLE w n := by
  have hs := slice_writeBytes_self X (natToLE w n) p (by rw [length_natToLE]; exact h)
  rwa [length_natToLE] at hs

theorem read_height_write_group (buf v : List Nat) (s n o : Nat) (b : Bool)
    (hlen : MIN_BUF_SIZE ≤ buf.length) :
    read_height (write_full (write_offset (write_height (write_slot buf s v) n) o) b) =
      n % 2 ^ 64 := by
  rw [MIN_BUF_SIZE_eq] at hlen
  unfold read_height write_full write_offset write_height write_slot USIZE_WIDTH
  rw [slice_writeBytes_left _ _ _ _ _ (by omega),
    slice_writeBytes_left _ _ _ _ _ (by omega),
    slice_write_natToLE _ _ _ _ (by rw [length_writeBytes]; omega),
    leToNat_natToLE, pow_256_8]

theorem read_offset_write_group (buf v : List Nat) (s n o : Nat) (b : Bool)
    (hlen : MIN_BUF_SIZE ≤ buf.length) :
    read_offset (write_full (write_offset (write_height (write_slot buf s v) n) o) b) =
      o % 2 ^ 64 := by
  rw [MIN_BUF_SIZE_eq] at hlen
  unfold read_offset write_full write_offset write_height write_slot USIZE_WIDTH
  rw [slice_writeBytes_left _ _ _ _ _ (by omega),
    slice_write_natToLE _ _ _ _ (by rw [length_writeBytes, length_writeBytes]; omega),
    leToNat_natToLE, pow_256_8]

theorem read_full_write_group (buf v : List Nat) (s n o : Nat) (b : Bool)
    (hlen : MIN_BUF_SIZE ≤ buf.length) :
    read_full (write_full (write_offset (write_height (write_slot buf s v) n) o) b) = b := by
  rw [MIN_BUF_SIZE_eq] at hlen
  unfold read_full write_full write_offset write_height write_slot USIZE_WIDTH
  have hs := slice_writeBytes_self
    (writeBytes (writeBytes (writeBytes buf (BLOCKS_OFFSET + s * BlockHeader.LEN) v)
      0 (natToLE 8 n)) 8 (natToLE 8 o))
    [if b then (1 : Nat) else 0] (8 + 8)
    (by simp only [length_writeBytes, List.length_cons, List.length_nil, Nat.zero_add]; omega)
  simp only [List.length_cons, List.length_nil, Nat.zero_add] at hs
  rw [hs]
  cases b <;> rfl

theorem read_slot_write_group (buf v : List Nat) (s n o : Nat) (b : Bool)
    (hv : v.length = BlockHeader.LEN)
    (hbound : BLOCKS_OFFSET + s * BlockHeader.LEN + BlockHeader.LEN ≤ buf.length) :
    read_slot (write_full (write_offset (write_height (write_slot buf s v) n) o) b) s = v := by
  unfold read_slot write_full write_offset write_height write_slot BLOCKS_OFFSET USIZE_WIDTH
  unfold BLOCKS_OFFSET USIZE_WIDTH at hbound
  rw [slice_writeBytes_right _ _ _ _ _
      (by simp only [List.length_cons, List.length_nil]; omega),
    slice_writeBytes_right _ _ _ _ _ (by rw [length_natToLE]; omega),
    slice_writeBytes_right _ _ _ _ _ (by rw [length_natToLE]; omega)]
  have hs := slice_writeBytes_self buf v (8 + 8 + 1 + s * BlockHeader.LEN) (by rw [hv]; omega)
  rw [hv] at hs
  exact hs

theorem headD_replicate (k : Nat) : (List.replicate k (0 : Nat)).headD 0 = 0 := by
  cases k <;> rfl

theorem read_height_replicate (n : Nat) : read_height (List.replicate n 0) = 0 := by
  unfold read_height
  rw [slice_replicate, leToNat_replicate_zero]

theorem read_offset_replicate (n : Nat) : read_offset (List.replicate n 0) = 0 := by
  unfold read_offset
  rw [slice_replicate, leToNat_replicate_zero]

theorem read_full_replicate (n : Nat) : read_full (List.replicate n 0) = false := by
  unfold read_full
  rw [slice_replicate, headD_replicate]
  rfl

theorem process_initialise_eq (hash_fn : BlockHeader → List Nat) (pow_fn : BlockHeader → Bool)
    (buf : List Nat) (hdr : BlockHeader)
    (h1 : MIN_BUF_SIZE ≤ buf.length) (h2 : read_height buf = 0)
    (h3 : hdr.extra_data.bytes.length ≤ ExtraData.MAX_LEN) :
    process_instruction hash_fn pow_fn buf (.initialise hdr) =
      (write_full
        (write_offset (write_height (write_slot buf 0 hdr.pack_into_slice) hdr.number) 1)
        false, none) := by
  unfold process_instruction
  dsimp only
  rw [if_neg (by omega), if_neg (by simp [h2]), if_neg (by omega)]

theorem process_newBlock_eq (hash_fn : BlockHeader → List Nat) (pow_fn : BlockHeader → Bool)
    (buf : List Nat) (hdr tip : BlockHeader)
    (h1 : MIN_BUF_SIZE ≤ buf.length) (h2 : read_height buf ≠ 0)
    (hpow : pow_fn hdr = true)
    (htip : BlockHeader.unpack_from_slice
      (read_slot buf ((read_offset buf + (capacity - 1)) % capacity)) = some tip)
    (hpar : hdr.parent_hash = hash_fn tip)
    (hnum : hdr.number = read_height buf + 1)
    (h3 : hdr.extra_data.bytes.length ≤ ExtraData.MAX_LEN) :
    process_instruction hash_fn pow_fn buf (.newBlock hdr) =
      (write_full
        (write_offset
          (write_height (write_slot buf (read_offset buf) hdr.pack_into_slice) hdr.number)
          ((read_offset buf + 1) % capacity))
        (read_full buf || ((read_offset buf + 1) % capacity == 0)), none) := by
  unfold process_instruction
  dsimp only
  rw [if_neg (by omega), if_neg (by simp [h2]), if_neg (by simp [hpow])]
  simp only [htip]
  rw [if_neg (by simp [hpar]), if_neg (by simp [hnum]), if_neg (by omega)]

theorem capacity_pos : 0 < capacity := by
  unfold capacity HEADER_HISTORY_SIZE
  omega

theorem capacity_lt_2_64 : capacity < 2 ^ 64 := by
  unfold capacity HEADER_HISTORY_SIZE
  norm_num

theorem offset_lt_step (hash_fn : BlockHeader → List Nat) (pow_fn : BlockHeader → Bool)
    (buf : List Nat) (i : Instruction) (h : read_offset buf < capacity) :
    read_offset (process_instruction hash_fn pow_fn buf i).1 < capacity := by
  cases i with
  | noop => exact h
  | initialise hdr =>
    unfold process_instruction
    dsimp only
    split
    · exact h
    split
    · exact h
    split
    · exact h
    rename_i h1 h2 h3
    dsimp only
    rw [read_offset_write_group _ _ _ _ _ _ (by omega)]
    have h100 : (1 : Nat) % 2 ^ 64 = 1 := by norm_num
    rw [h100]
    unfold capacity HEADER_HISTORY_SIZE
    omega
  | newBlock hdr =>
    unfold process_instruction
    dsimp only
    split
    · exact h
    split
    · exact h
    split
    · exact h
    split
    · exact h
    split
    · exact h
    split
    · exact h
    split
    · exact h
    rename_i h1 h2 h3 tip htip h4 h5 h6
    dsimp only
    rw [read_offset_write_group _ _ _ _ _ _ (by omega)]
    have hm : (read_offset buf + 1) % capacity < capacity := Nat.mod_lt _ capacity_pos
    rw [Nat.mod_eq_of_lt (lt_trans hm capacity_lt_2_64)]
    exact hm

theorem run_instructions_cons (hash_fn : BlockHeader → List Nat)
    (pow_fn : BlockHeader → Bool) (buf : List Nat) (i : Instruction) (is : List Instruction) :
    run_instructions hash_fn pow_fn buf (i :: is) =
      run_instructions hash_fn pow_fn (process_instruction hash_fn pow_fn buf i).1 is := rfl

theorem offset_lt_run (hash_fn : BlockHeader → List Nat) (pow_fn : BlockHeader → Bool)
    (is : List Instruction) (buf : List Nat) (h : read_offset buf < capacity) :
    read_offset (run_instructions hash_fn pow_fn buf is) < capacity := by
  induction is generalizing buf with
  | nil => exact h
  | cons i is ih =>
    rw [run_instructions_cons]
    exact ih _ (offset_lt_step hash_fn pow_fn buf i h)

/-! ## Claim theorems -/

/-- Claim C1: for every instruction and every starting buffer, if processing the
instruction returns an error then the buffer after the call is byte-for-byte
identical to the buffer before the call. -/
theorem claim_atomicity (hash_fn : BlockHeader → List Nat) (pow_fn : BlockHeader → Bool)
    (buf : List Nat) (i : Instruction) (e : ProgError)
    (he : (process_instruction hash_fn pow_fn buf i).2 = some e) :
    (process_instruction hash_fn pow_fn buf i).1 = buf := by
  revert he
  cases i with
  | noop => simp [process_instruction]
  | initialise hdr =>
    unfold process_instruction
    dsimp only
    repeat' split
    all_goals simp
  | newBlock hdr =>
    unfold process_instruction
    dsimp only
    repeat' split
    all_goals simp

theorem claim_atomicity_witness :
    (process_instruction (fun _ => []) (fun _ => false) [] (.initialise emptyHeader)).2 =
      some ProgError.bufferTooSmall ∧
    (process_instruction (fun _ => []) (fun _ => false) [] (.initialise emptyHeader)).1 = [] :=
  ⟨by decide,
   claim_atomicity (fun _ => []) (fun _ => false) [] (.initialise emptyHeader)
     ProgError.bufferTooSmall (by decide)⟩

/-- Claim C8: a buffer of length exactly `MIN_BUF_SIZE - 1` makes every
instruction except `Noop` fail with `BufferTooSmall`, regardless of the buffer
contents and the oracles, and no byte of the buffer is mutated. -/
theorem claim_buffer_too_small (hash_fn : BlockHeader → List Nat)
    (pow_fn : BlockHeader → Bool) (buf : List Nat) (i : Instruction)
    (hlen : buf.length = MIN_BUF_SIZE - 1) (hi : i ≠ Instruction.noop) :
    process_instruction hash_fn pow_fn buf i = (buf, some ProgError.bufferTooSmall) := by
  have hm := MIN_BUF_SIZE_eq
  cases i with
  | noop => exact absurd rfl hi
  | initialise hdr =>
    unfold process_instruction
    dsimp only
    rw [if_pos (by omega)]
  | newBlock hdr =>
    unfold process_instruction
    dsimp only
    rw [if_pos (by omega)]

theorem claim_buffer_too_small_witness :
    process_instruction (fun _ => []) (fun _ => false) (List.replicate 637 0)
      (.newBlock emptyHeader) = (List.replicate 637 0, some ProgError.bufferTooSmall) :=
  claim_buffer_too_small (fun _ => []) (fun _ => false) (List.replicate 637 0)
    (.newBlock emptyHeader) (by decide) (by decide)

/-- Claim C9: in every storage state reachable by any sequence of instructions
from a zeroed buffer the ring cursor satisfies `offset < capacity` with
`capacity = HEADER_HISTORY_SIZE = 100` (this covers in particular all
sequences of successful `Initialize` and `NewBlock` calls), and every
successful `NewBlock` advances the cursor as `offset = (offset + 1) mod
capacity`. -/
theorem claim_ring_cursor :
    (capacity = HEADER_HISTORY_SIZE ∧ HEADER_HISTORY_SIZE = 100) ∧
    (∀ (hash_fn : BlockHeader → List Nat) (pow_fn : BlockHeader → Bool) (n : Nat)
      (is : List Instruction),
      read_offset (run_instructions hash_fn pow_fn (List.replicate n 0) is) < capacity) ∧
    (∀ (hash_fn : BlockHeader → List Nat) (pow_fn : BlockHeader → Bool) (buf : List Nat)
      (hdr : BlockHeader),
      (process_instruction hash_fn pow_fn buf (.newBlock hdr)).2 = none →
      read_offset (process_instruction hash_fn pow_fn buf (.newBlock hdr)).1 =
        (read_offset buf + 1) % capacity) := by
  refine ⟨⟨rfl, rfl⟩, ?_, ?_⟩
  · intro hash_fn pow_fn n is
    refine offset_lt_run hash_fn pow_fn is _ ?_
    rw [read_offset_replicate]
    exact capacity_pos
  · intro hash_fn pow_fn buf hdr
    unfold process_instruction
    dsimp only
    split
    · intro hc; simp at hc
    split
    · intro hc; simp at hc
    split
    · intro hc; simp at hc
    split
    · intro hc; simp at hc
    split
    · intro hc; simp at hc
    split
    · intro hc; simp at hc
    split
    · intro hc; simp at hc
    rename_i h1 h2 h3 tip htip h4 h5 h6
    intro _
    dsimp only
    rw [read_offset_write_group _ _ _ _ _ _ (by omega)]
    exact Nat.mod_eq_of_lt (lt_trans (Nat.mod_lt _ capacity_pos) capacity_lt_2_64)

theorem claim_ring_cursor_witness :
    read_offset (run_instructions (fun _ => []) (fun _ => false) (List.replicate 0 0)
      [Instruction.noop]) < capacity ∧
    read_offset (process_instruction (fun _ => header_400001.parent_hash) (fun _ => true)
      (process_instruction (fun _ => header_400001.parent_hash) (fun _ => true)
        (List.replicate 638 0) (.initialise header_400000)).1
      (.newBlock header_400001)).1 =
      (read_offset (process_instruction (fun _ => header_400001.parent_hash) (fun _ => true)
        (List.replicate 638 0) (.initialise header_400000)).1 + 1) % capacity :=
  ⟨claim_ring_cursor.2.1 (fun _ => []) (fun _ => false) 0 [Instruction.noop],
   claim_ring_cursor.2.2 (fun _ => header_400001.parent_hash) (fun _ => true) _ header_400001
     (by decide)⟩

/-- Claim C10: `MIN_BUF_SIZE` equals `BLOCKS_OFFSET + BlockHeader::LEN`, which
is strictly less than the space needed for the declared 100-slot ring, and a
buffer of exactly `MIN_BUF_SIZE` has room for exactly one header slot. -/
theorem claim_min_buf_size :
    MIN_BUF_SIZE = BLOCKS_OFFSET + BlockHeader.LEN ∧
    MIN_BUF_SIZE < BLOCKS_OFFSET + HEADER_HISTORY_SIZE * BlockHeader.LEN ∧
    (MIN_BUF_SIZE - BLOCKS_OFFSET) / BlockHeader.LEN = 1 := by
  refine ⟨rfl, by decide, by decide⟩

/-- Claim C2: starting from an all-zero buffer of any size at least
`MIN_BUF_SIZE`, `Initialize(header_400000)` followed by
`NewBlock(header_400001)` both succeed, and afterwards the stored height is
400001 and `slot_count()` is 2.  The hash and proof-of-work oracles are
assumed to accept the real headers, as they do on mainnet. -/
theorem claim_end_to_end (hash_fn : BlockHeader → List Nat) (pow_fn : BlockHeader → Bool)
    (n : Nat) (hn : MIN_BUF_SIZE ≤ n)
    (hpow : pow_fn header_400001 = true)
    (hhash : hash_fn header_400000 = header_400001.parent_hash) :
    (process_instruction hash_fn pow_fn (List.replicate n 0)
      (.initialise header_400000)).2 = none ∧
    (process_instruction hash_fn pow_fn
      (process_instruction hash_fn pow_fn (List.replicate n 0)
        (.initialise header_400000)).1 (.newBlock header_400001)).2 = none ∧
    read_height (process_instruction hash_fn pow_fn
      (process_instruction hash_fn pow_fn (List.replicate n 0)
        (.initialise header_400000)).1 (.newBlock header_400001)).1 = 400001 ∧
    slot_count (process_instruction hash_fn pow_fn
      (process_instruction hash_fn pow_fn (List.replicate n 0)
        (.initialise header_400000)).1 (.newBlock header_400001)).1 = 2 := by
  have hv0 : validHeader header_400000 := by decide
  have hv1 : validHeader header_400001 := by decide
  have h638 : MIN_BUF_SIZE ≤ (List.replicate n (0 : Nat)).length := by
    rw [List.length_replicate]; exact hn
  have E1 := process_initialise_eq hash_fn pow_fn (List.replicate n 0) header_400000 h638
    (read_height_replicate n) (by decide)
  rw [E1]
  dsimp only
  set B := write_full (write_offset (write_height
    (write_slot (List.replicate n 0) 0 header_400000.pack_into_slice)
    header_400000.number) 1) false with hB
  have hlenB : B.length = n := by
    rw [hB, length_write_group, List.length_replicate]
  have hh1 : read_height B = 400000 := by
    rw [hB, read_height_write_group _ _ _ _ _ _ h638]
    decide
  have ho1 : read_offset B = 1 := by
    rw [hB, read_offset_write_group _ _ _ _ _ _ h638]
    decide
  have hf1 : read_full B = false := by
    rw [hB, read_full_write_group _ _ _ _ _ _ h638]
  have hs1 : read_slot B 0 = header_400000.pack_into_slice := by
    rw [hB]
    refine read_slot_write_group _ _ _ _ _ _ (header_pack_length header_400000 hv0) ?_
    rw [List.length_replicate]
    have h1 : BLOCKS_OFFSET = 17 := rfl
    have h2 : BlockHeader.LEN = 621 := rfl
    rw [MIN_BUF_SIZE_eq] at hn
    omega
  have htip : BlockHeader.unpack_from_slice
      (read_slot B ((read_offset B + (capacity - 1)) % capacity)) = some header_400000 := by
    rw [ho1]
    have hz : (1 + (capacity - 1)) % capacity = 0 := by
      unfold capacity HEADER_HISTORY_SIZE
      decide
    rw [hz, hs1]
    exact header_unpack_pack header_400000 hv0
  have E2 := process_newBlock_eq hash_fn pow_fn B header_400001 header_400000
    (by rw [hlenB]; exact hn)
    (by rw [hh1]; decide)
    hpow htip
    hhash.symm
    (by rw [hh1]; decide)
    (by decide)
  rw [E2]
  dsimp only
  refine ⟨rfl, rfl, ?_, ?_⟩
  · rw [read_height_write_group _ _ _ _ _ _ (by rw [hlenB]; exact hn)]
    decide
  · unfold slot_count
    rw [read_full_write_group _ _ _ _ _ _ (by rw [hlenB]; exact hn)]
    rw [ho1]
    rw [hf1]
    have hc : (false || ((1 + 1) % capacity == 0)) = false := by
      unfold capacity HEADER_HISTORY_SIZE
      decide
    rw [hc]
    simp only [Bool.false_eq_true, if_false]
    rw [read_offset_write_group _ _ _ _ _ _ (by rw [hlenB]; exact hn)]
    unfold capacity HEADER_HISTORY_SIZE
    decide

theorem claim_end_to_end_witness :
    (process_instruction (fun _ => header_400001.parent_hash) (fun _ => true)
      (List.replicate 638 0) (.initialise header_400000)).2 = none ∧
    (process_instruction (fun _ => header_400001.parent_hash) (fun _ => true)
      (process_instruction (fun _ => header_400001.parent_hash) (fun _ => true)
        (List.replicate 638 0) (.initialise header_400000)).1
      (.newBlock header_400001)).2 = none ∧
    read_height (process_instruction (fun _ => header_400001.parent_hash) (fun _ => true)
      (process_instruction (fun _ => header_400001.parent_hash) (fun _ => true)
        (List.replicate 638 0) (.initialise header_400000)).1
      (.newBlock header_400001)).1 = 400001 ∧
    slot_count (process_instruction (fun _ => header_400001.parent_hash) (fun _ => true)
      (process_instruction (fun _ => header_400001.parent_hash) (fun _ => true)
        (List.replicate 638 0) (.initialise header_400000)).1
      (.newBlock header_400001)).1 = 2 :=
  claim_end_to_end (fun _ => header_400001.parent_hash) (fun _ => true) 638
    (by decide) rfl rfl

/-- Claim C4: for every valid block header, decoding the RLP wire encoding of
the header yields the header again. -/
theorem claim_rlp_roundtrip (h : BlockHeader) (hv : validHeader h) :
    decode_rlp (encode_header h) = some h :=
  decode_encode h hv

theorem claim_rlp_roundtrip_witness :
    decode_rlp (encode_header header_8982502) = some header_8982502 :=
  claim_rlp_roundtrip header_8982502 (by decide)

/-- Claim C5: packing a header satisfying the extra-data invariant and
unpacking the resulting `BlockHeader::LEN` buffer yields the header again, and
on an arbitrary buffer of the packed size unpacking is total, failing exactly
when the declared extra-data length byte exceeds the capacity. -/
theorem claim_packed_roundtrip :
    (∀ h : BlockHeader, validHeader h →
      BlockHeader.unpack_from_slice h.pack_into_slice = some h) ∧
    (∀ l : List Nat, l.length = BlockHeader.LEN →
      (BlockHeader.unpack_from_slice l = none ↔ ExtraData.MAX_LEN < l.getD 548 0)) := by
  refine ⟨fun h hv => header_unpack_pack h hv, ?_⟩
  intro l hl
  have hhead : (slice l 548 ExtraData.LEN).headD 0 = l.getD 548 0 := by
    unfold slice
    rw [List.headD_eq_head?_getD, List.head?_take, if_neg (by decide), List.head?_drop,
      List.getD_eq_getElem?_getD]
  have hslen : (slice l 548 ExtraData.LEN).length = ExtraData.LEN := by
    unfold slice
    rw [List.length_take, List.length_drop, hl]
    decide
  unfold BlockHeader.unpack_from_slice ExtraData.unpack_from_slice
  rw [if_pos hl, if_pos hslen, hhead]
  by_cases hb : l.getD 548 0 ≤ ExtraData.MAX_LEN
  · rw [if_pos hb]
    simp only [reduceCtorEq]
    constructor
    · intro hc
      exact absurd hc (by simp)
    · intro hc
      omega
  · rw [if_neg hb]
    constructor
    · intro _
      omega
    · intro _
      rfl

theorem claim_packed_roundtrip_witness :
    BlockHeader.unpack_from_slice header_8982502.pack_into_slice = some header_8982502 ∧
    (BlockHeader.unpack_from_slice (List.replicate 621 0) = none ↔
      ExtraData.MAX_LEN < (List.replicate 621 (0 : Nat)).getD 548 0) :=
  ⟨claim_packed_roundtrip.1 header_8982502 (by decide),
   claim_packed_roundtrip.2 (List.replicate 621 0) (by decide)⟩

/-- Claim C6: for every byte sequence of length at most `MAX_LEN - 1`,
unpacking the packed form of the wrapped sequence (length prefix plus
zero-padded payload) reproduces the sequence exactly. -/
theorem claim_extradata_roundtrip (b : List Nat) (hb : b.length ≤ ExtraData.MAX_LEN - 1) :
    ExtraData.unpack_from_slice (ExtraData.pack_into_slice ⟨b⟩) = some ⟨b⟩ :=
  extra_unpack_pack ⟨b⟩ (by show b.length ≤ ExtraData.MAX_LEN; omega)

theorem claim_extradata_roundtrip_witness :
    ExtraData.unpack_from_slice (ExtraData.pack_into_slice ⟨[]⟩) = some ⟨[]⟩ ∧
    ExtraData.unpack_from_slice (ExtraData.pack_into_slice ⟨[4]⟩) = some ⟨[4]⟩ ∧
    ExtraData.unpack_from_slice (ExtraData.pack_into_slice ⟨[5, 5]⟩) = some ⟨[5, 5]⟩ ∧
    ExtraData.unpack_from_slice (ExtraData.pack_into_slice ⟨[6, 6, 6]⟩) = some ⟨[6, 6, 6]⟩ :=
  ⟨claim_extradata_roundtrip [] (by decide),
   claim_extradata_roundtrip [4] (by decide),
   claim_extradata_roundtrip [5, 5] (by decide),
   claim_extradata_roundtrip [6, 6, 6] (by decide)⟩

/-- Claim C7: decoding the RLP wire bytes of Ethereum block 400000's header
succeeds with `number = 400000` and `difficulty = 6022643743806`, and the
recomputed header hash (Keccak-256 of the canonical encoding) equals the
known block hash. -/
theorem claim_known_vector :
    decode_rlp header_400000_rlp = some header_400000 ∧
    header_400000.number = 400000 ∧
    header_400000.difficulty = 6022643743806 ∧
    hash_header header_400000 = hash_400000_expected :=
  ⟨by decide, rfl, rfl, by decide⟩

end EthClient
